import Mathlib

/-!
# Verification of the NWC2010-to-WARC converter (`html_to_warc.py`)

Shallow embedding of the converter in `src/html_to_warc.py`.  Python byte
strings and text strings are both modelled as lists of natural numbers
(code points).  This is faithful because every string manipulated by the
program is obtained by `latin_1` or `ascii` decoding, and both codecs are
the identity on code points (`latin_1` maps byte `b` to code point `b`;
`ascii` does the same but fails on bytes ≥ 128).

The byte cursor (`iter_bytes`) is modelled by the input `List Nat` itself:
it yields the decompressed bytes of the file one by one, and the inner
block buffering is unobservable.  Exhaustion of the Python iterator
(`StopIteration`) is modelled by `Option`/result constructors.
-/

namespace NwcWarc

/-- A Python `str` (sequence of unicode code points) or `bytes`
(sequence of byte values). Decoding with `latin_1` is the identity. -/
abbrev PyStr := List Nat

/-- Embed a Lean string literal as a list of code points. -/
def pstr (s : String) : PyStr := s.toList.map Char.toNat

/-- Python `str.isspace` restricted to latin-1 code points:
`\t \n \v \f \r`, the C0 separators `\x1c`–`\x1f`, space, `\x85`, `\xa0`. -/
def pyIsSpace (c : Nat) : Bool :=
  c = 9 || c = 10 || c = 11 || c = 12 || c = 13 ||
  c = 28 || c = 29 || c = 30 || c = 31 || c = 32 || c = 133 || c = 160

/-- Python `str.lstrip()` (no argument: unicode whitespace). -/
def pyLstrip (s : PyStr) : PyStr := s.dropWhile pyIsSpace

/-- Python `str.rstrip()` (no argument: unicode whitespace). -/
def pyRstrip (s : PyStr) : PyStr := (s.reverse.dropWhile pyIsSpace).reverse

/-- Python `str.strip()`. -/
def pyStrip (s : PyStr) : PyStr := pyRstrip (pyLstrip s)

/-- Python `str.rstrip("\n")`: drop trailing line feeds only. -/
def pyRstripNL (s : PyStr) : PyStr := (s.reverse.dropWhile (· = 10)).reverse

/-- Python `str.lower` on a latin-1 code point: ASCII letters and the
latin-1 uppercase letters `À`–`Þ` (215 `×` excepted) map down by 32. -/
def pyLower (c : Nat) : Nat :=
  if 65 ≤ c ∧ c ≤ 90 then c + 32
  else if 192 ≤ c ∧ c ≤ 222 ∧ c ≠ 215 then c + 32
  else c

/-- ASCII decimal digit. -/
def pyIsDigit (c : Nat) : Bool := 48 ≤ c && c ≤ 57

/-- Digit run of a Python integer literal: digits with single
underscores allowed between digits (`1_2` parses, `1__2`/`_1`/`1_` fail).
`acc` is the value of the digits already consumed. -/
def pyDigitsAux (acc : Nat) : List Nat → Option Nat
  | [] => some acc
  | 95 :: rest =>
    match rest with
    | c :: rest₂ =>
      if pyIsDigit c then pyDigitsAux (acc * 10 + (c - 48)) rest₂ else none
    | [] => none
  | c :: rest =>
    if pyIsDigit c then pyDigitsAux (acc * 10 + (c - 48)) rest else none

/-- Nonempty digit run starting with a digit (no leading underscore). -/
def pyDigits : List Nat → Option Nat
  | [] => none
  | c :: rest => if pyIsDigit c then pyDigitsAux (c - 48) rest else none

/-- Core of Python `int(x)`: strip whitespace (the allowed set depends on
whether `x` is `bytes` or `str`), then an optional single sign followed by
a digit run. -/
def pyIntCore (ws : Nat → Bool) (s : List Nat) : Option Int :=
  let t := ((s.dropWhile ws).reverse.dropWhile ws).reverse
  match t with
  | 43 :: rest => (pyDigits rest).map Int.ofNat
  | 45 :: rest => (pyDigits rest).map (fun n => -(Int.ofNat n))
  | _ => (pyDigits t).map Int.ofNat

/-- Python `int(b)` for `b : bytes`: whitespace is the ASCII set
`\t \n \v \f \r` and space only (verified against CPython). -/
def pyIntBytes (s : List Nat) : Option Int :=
  pyIntCore (fun c => c = 9 || c = 10 || c = 11 || c = 12 || c = 13 || c = 32) s

/-- Python `int(s)` for `s : str`: whitespace additionally includes the
latin-1 spaces `\x85` and `\xa0` (but not `\x1c`–`\x1f`; verified against
CPython). -/
def pyIntStr (s : PyStr) : Option Int :=
  pyIntCore (fun c => c = 9 || c = 10 || c = 11 || c = 12 || c = 13 ||
    c = 32 || c = 133 || c = 160) s

/-- Decimal digits of `n`, most significant first (fuel-structured so that
it reduces definitionally; `n + 1` units of fuel always suffice). -/
def natDecAux : Nat → Nat → List Nat
  | 0, _ => []
  | fuel + 1, n =>
    if n < 10 then [48 + n] else natDecAux fuel (n / 10) ++ [48 + n % 10]

/-- Python `str(n)` for a natural number. -/
def natToDec (n : Nat) : List Nat := natDecAux (n + 1) n

/-- Python `str(i)` for an integer. -/
def intToPyStr : Int → PyStr
  | .ofNat m => natToDec m
  | .negSucc m => 45 :: natToDec (m + 1)

/-- Python `s.split("\n")` (on the empty string this yields `[""]`). -/
def pySplitNL : List Nat → List PyStr
  | [] => [[]]
  | c :: rest =>
    match pySplitNL rest with
    | [] => []
    | h :: t => if c = 10 then [] :: h :: t else (c :: h) :: t

/-- Python `s.split(":", 1)`: at most one split, at the first colon.
Returns the part before the colon and, when a colon exists, the rest. -/
def splitFirstColon : List Nat → PyStr × Option PyStr
  | [] => ([], none)
  | c :: rest =>
    if c = 58 then ([], some rest)
    else
      let r := splitFirstColon rest
      (c :: r.1, r.2)

/-- Python `s.split()` (split on whitespace runs, no empty parts).
`cur` is the reversed current word. -/
def pySplitWsAux (cur : List Nat) : List Nat → List PyStr
  | [] => if cur = [] then [] else [cur.reverse]
  | c :: rest =>
    if pyIsSpace c then
      if cur = [] then pySplitWsAux [] rest
      else cur.reverse :: pySplitWsAux [] rest
    else pySplitWsAux (c :: cur) rest

/-- Python `s.split()`. -/
def pySplitWs (s : PyStr) : List PyStr := pySplitWsAux [] s

/-- Python `bytes.decode("ascii")`: identity on code points, fails on a byte ≥ 128. -/
def asciiDecode (b : List Nat) : Option PyStr :=
  if b.all (· < 128) then some b else none

/-- Python `str.encode("ascii")`. -/
def asciiEncode (s : PyStr) : Option (List Nat) :=
  if s.all (· < 128) then some s else none

/-- Python `str.encode("latin_1")`: identity on code points below 256. -/
def latin1Encode (s : PyStr) : Option (List Nat) :=
  if s.all (· < 256) then some s else none

/-! ## Ordered string dictionary (Python `dict[str, str]`)

Modelled as an association list in insertion order with unique keys.
`dictSet` mirrors `d[k] = v`: it updates the value in place when the key
exists (keeping its position, as Python dicts do) and appends otherwise. -/

/-- An insertion-ordered Python `dict[str, str]`. -/
abbrev Dict := List (PyStr × PyStr)

/-- Python `k in d`. -/
def dictMem (d : Dict) (k : PyStr) : Bool := d.any (fun kv => kv.1 = k)

/-- Python `d[k]` with a default for the (unreachable) missing case. -/
def dictGetD (d : Dict) (k : PyStr) (dflt : PyStr) : PyStr :=
  match d.find? (fun kv => kv.1 = k) with
  | some kv => kv.2
  | none => dflt

/-- Python `d[k] = v`. -/
def dictSet : Dict → PyStr → PyStr → Dict
  | [], k, v => [(k, v)]
  | kv :: rest, k, v =>
    if kv.1 = k then (kv.1, v) :: rest else kv :: dictSet rest k v

/-- Source `find_header_key(header, key)`: scan the keys in insertion order and
return the first one equal to `key` ignoring case, else `key` itself. -/
def find_header_key (header : Dict) (key : PyStr) : PyStr :=
  match header.find? (fun kv => kv.1.map pyLower = key.map pyLower) with
  | some kv => kv.1
  | none => key

/-! ## Header reconstruction (`parse_header`) -/

/-- Append `line` to the value of the last entry
(`kv_processed[-1][1] += x[0]` in the source). -/
def appendToLast : List (PyStr × PyStr) → PyStr → List (PyStr × PyStr)
  | [], _ => []
  | [kv], line => [(kv.1, kv.2 ++ line)]
  | kv :: rest, line => kv :: appendToLast rest line

/-- The `for x in kv` loop of `parse_header`: a colonless line is a
continuation appended to the previous entry (dropped when there is no
previous entry); a `key:value` line is appended to the accumulator. -/
def processKV : List (PyStr × Option PyStr) → List (PyStr × PyStr) → List (PyStr × PyStr)
  | [], acc => acc
  | (_, none) :: rest, [] => processKV rest []
  | (line, none) :: rest, kv :: acc => processKV rest (appendToLast (kv :: acc) line)
  | (k, some v) :: rest, acc => processKV rest (acc ++ [(k, v)])

/-- Source `parse_header(raw)`: decode as latin-1 (the identity on code points),
strip trailing whitespace, split into right-stripped lines, split each
line at its first colon, run the continuation loop, and build the dict
from the stripped keys and values. -/
def parse_header (raw : List Nat) : Dict :=
  let decoded := pyRstrip raw
  let lines := (pySplitNL decoded).map pyRstrip
  let kv := lines.map splitFirstColon
  (processKV kv []).foldl (fun d kv => dictSet d (pyStrip kv.1) (pyStrip kv.2)) []

/-! ## Date conversion (`convert_date`)

`convert_date` calls the Python standard library
(`email.utils.parsedate` followed by the `datetime.datetime`
constructor), catching every exception and returning `None` on failure.
The stdlib is outside the repository, so `parsedateFields` below is
modelled from CPython's `email._parseaddr._parsedate_tz` (the common
RFC-822 paths: optional day-of-week, day/month swap, two-digit year
adjustment, `hh:mm[:ss]` time).  The deprecated RFC-850 dashed-date and
dotted-time variants are omitted; they make `parsedateFields` return
`none` where CPython would succeed, which no claim depends on. -/

/-- Python `s.split(sep)` for a one-character separator. -/
def pySplitOn (sep : Nat) : List Nat → List PyStr
  | [] => [[]]
  | c :: rest =>
    match pySplitOn sep rest with
    | [] => []
    | h :: t => if c = sep then [] :: h :: t else (c :: h) :: t

/-- The part of `s` after its last comma (`s` itself when there is none):
`data[0][i+1:]` for `i = data[0].rfind(',')`. -/
def afterLastComma (s : PyStr) : PyStr :=
  (s.reverse.takeWhile (fun c => ¬ c = 44)).reverse

def dayNames : List PyStr :=
  [pstr "mon", pstr "tue", pstr "wed", pstr "thu", pstr "fri", pstr "sat",
   pstr "sun"]

def monthNames : List PyStr :=
  [pstr "jan", pstr "feb", pstr "mar", pstr "apr", pstr "may", pstr "jun",
   pstr "jul", pstr "aug", pstr "sep", pstr "oct", pstr "nov", pstr "dec",
   pstr "january", pstr "february", pstr "march", pstr "april",
   pstr "may", pstr "june", pstr "july", pstr "august", pstr "september",
   pstr "october", pstr "november", pstr "december"]

/-- Finish of the parse: convert the textual fields to integers and apply
the two-digit-year adjustment.  Returns `(year, month, day, hour, minute,
second)`. -/
def parsedateFinish (month : Nat) (yy dd thh tmm tss : PyStr) :
    Option (Int × Nat × Int × Int × Int × Int) := do
  let y ← pyIntStr yy
  let d ← pyIntStr dd
  let h ← pyIntStr thh
  let mi ← pyIntStr tmm
  let s ← pyIntStr tss
  let y := if y < 100 then (if y > 68 then y + 1900 else y + 2000) else y
  pure (y, month, d, h, mi, s)

/-- Model of `email.utils.parsedate(s)[:6]` (see the section comment). -/
def parsedateFields (s : PyStr) : Option (Int × Nat × Int × Int × Int × Int) :=
  match pySplitWs s with
  | [] => none
  | d0 :: rest =>
    -- drop an optional day-of-week token
    let data :=
      if d0.getLast? = some 44 ∨ dayNames.contains (d0.map pyLower) then rest
      else afterLastComma d0 :: rest
    -- with exactly four tokens, split a trailing zone off the time token
    let data :=
      match data with
      | [a, b, c, t] =>
        let i : Option Nat :=
          match t.findIdx? (fun x => x = 43) with
          | some j => some j
          | none => t.findIdx? (fun x => x = 45)
        match i with
        | some j =>
          if 0 < j then [a, b, c, t.take j, t.drop j] else [a, b, c, t, []]
        | none => [a, b, c, t, []]
      | _ => data
    match data with
    | dd :: mm :: yy :: tm :: tz :: _ =>
      if dd = [] ∨ mm = [] ∨ yy = [] then none
      else
        let mmL := mm.map pyLower
        let p : PyStr × PyStr :=
          if monthNames.contains mmL then (dd, mmL) else (mmL, dd.map pyLower)
        let dd := p.1
        match monthNames.findIdx? (fun x => x = p.2) with
        | none => none
        | some idx =>
          let month := if idx + 1 > 12 then idx + 1 - 12 else idx + 1
          let dd := if dd.getLast? = some 44 then dd.dropLast else dd
          -- a colon inside the year token means year and time are swapped
          let q : PyStr × PyStr :=
            match yy.findIdx? (fun x => x = 58) with
            | some j => if j > 0 then (tm, yy) else (yy, tm)
            | none => (yy, tm)
          let tm := q.2
          let yy? : Option PyStr :=
            if q.1.getLast? = some 44 then
              (if q.1.dropLast = [] then none else some q.1.dropLast)
            else some q.1
          match yy? with
          | none => none
          | some yy =>
            -- a year not starting with a digit is swapped with the zone
            let yy :=
              match yy.head? with
              | some c => if pyIsDigit c then yy else tz
              | none => tz
            let tm := if tm.getLast? = some 44 then tm.dropLast else tm
            match pySplitOn 58 tm with
            | [thh, tmm] => parsedateFinish month yy dd thh tmm (pstr "0")
            | [thh, tmm, tss] => parsedateFinish month yy dd thh tmm tss
            | _ => none
    | _ => none

/-- A resolved timestamp (the first six fields of a Python `datetime`). -/
structure DateTime where
  year : Nat
  month : Nat
  day : Nat
  hour : Nat
  minute : Nat
  second : Nat
deriving DecidableEq, Repr

instance : Inhabited DateTime := ⟨⟨1, 1, 1, 0, 0, 0⟩⟩

def isLeapYear (y : Int) : Bool :=
  (y % 4 = 0 && ¬ y % 100 = 0) || y % 400 = 0

def daysInMonth (y : Int) (m : Nat) : Nat :=
  if m = 2 then (if isLeapYear y then 29 else 28)
  else if m = 4 ∨ m = 6 ∨ m = 9 ∨ m = 11 then 30
  else 31

/-- The `datetime.datetime` constructor: validates every field and raises
(`none`) on an out-of-range value. -/
def pyDatetime (y : Int) (mo : Nat) (d h mi s : Int) : Option DateTime :=
  if 1 ≤ y ∧ y ≤ 9999 ∧ 1 ≤ mo ∧ mo ≤ 12 ∧ 1 ≤ d ∧ d ≤ (daysInMonth y mo : Int) ∧
      0 ≤ h ∧ h ≤ 23 ∧ 0 ≤ mi ∧ mi ≤ 59 ∧ 0 ≤ s ∧ s ≤ 59 then
    some ⟨y.toNat, mo, d.toNat, h.toNat, mi.toNat, s.toNat⟩
  else none

/-- Source `convert_date(dt_str)`: parse an HTTP-style date, `none` on any
failure (the source catches every exception and returns `None`). -/
def convert_date (s : PyStr) : Option DateTime :=
  match parsedateFields s with
  | none => none
  | some (y, mo, d, h, mi, sec) => pyDatetime y mo d h mi sec

/-- The fallback HTTP-date string (assumed end of the crawl). -/
def FINAL_DATE_HTTP : PyStr := pstr "Thu, 30 Sep 2010 23:59:59 GMT"

/-- Source `FINAL_DATE = convert_date(FINAL_DATE_HTTP)` — the source annotates it
as a plain `datetime`; the default is never used (see
`convert_date_FINAL_DATE_HTTP`). -/
def FINAL_DATE : DateTime := (convert_date FINAL_DATE_HTTP).getD default

/-! ## Documents -/

/-- One converted record.  `id` is the freshly generated `uuid4` of the
source, supplied externally as a string (randomness is outside the
model). -/
structure Document where
  id : PyStr
  url : PyStr
  date : DateTime
  status : Int
  header : Dict
  body : List Nat
deriving DecidableEq, Repr

/-! ## Chunk reader (`read_chunk`)

`read_chunk(it)` (no `min_bytes`) consumes bytes up to and including a
line feed; `read_chunk(it, n)` consumes exactly `n` bytes (none when
`n ≤ 0`, since `range(n)` is then empty).  In both modes an exhausted
iterator raises `StopIteration` — the same exception whether no byte or
some bytes were consumed — modelled as `none`. -/

/-- Line mode of `read_chunk`: the returned chunk includes the
terminating line feed; `none` when the stream ends before one is seen
(whether or not bytes were consumed first). -/
def readChunkLine : List Nat → Option (List Nat × List Nat)
  | [] => none
  | b :: rest =>
    if b = 10 then some ([10], rest)
    else
      match readChunkLine rest with
      | some (line, r) => some (b :: line, r)
      | none => none

/-- Fixed-length mode of `read_chunk`: exactly `n` bytes (`n ≤ 0` reads
nothing); `none` when fewer remain. -/
def readChunkN (n : Int) (s : List Nat) : Option (List Nat × List Nat) :=
  if s.length < n.toNat then none else some (s.take n.toNat, s.drop n.toNat)

/-! ## Record extraction (`iter_documents`) -/

/-- The framing fields of one record, in stream order, plus the
remaining stream. -/
structure Framing where
  url : PyStr
  status : Int
  headerLen : Int
  headerRaw : List Nat
  bodyLen : Int
  body : List Nat
  rest : List Nat
deriving DecidableEq, Repr

inductive FramingResult where
  /-- A `StopIteration` during one of the reads; caught by the
  `except StopIteration: pass` of `iter_documents`. -/
  | eof
  /-- An uncaught exception (`UnicodeDecodeError`, `ValueError`). -/
  | fatal (msg : String)
  | ok (f : Framing)
deriving DecidableEq, Repr

/-- Lines 101–106 of the source: read URL, status, header length, header
block, body length and body block, with the source's interleaving of
decode/parse failures (fatal) and exhaustion (eof). -/
def readFraming (s : List Nat) : FramingResult :=
  match readChunkLine s with
  | none => .eof
  | some (urlChunk, s₁) =>
    match asciiDecode urlChunk with
    | none => .fatal "UnicodeDecodeError: url"
    | some urlDec =>
      let url := pyRstripNL urlDec
      match readChunkLine s₁ with
      | none => .eof
      | some (statusChunk, s₂) =>
        match pyIntBytes statusChunk with
        | none => .fatal "ValueError: status"
        | some status =>
          match readChunkLine s₂ with
          | none => .eof
          | some (hlChunk, s₃) =>
            match pyIntBytes hlChunk with
            | none => .fatal "ValueError: header_length"
            | some headerLen =>
              match readChunkN headerLen s₃ with
              | none => .eof
              | some (headerRaw, s₄) =>
                match readChunkLine s₄ with
                | none => .eof
                | some (blChunk, s₅) =>
                  match pyIntBytes blChunk with
                  | none => .fatal "ValueError: body_length"
                  | some bodyLen =>
                    match readChunkN bodyLen s₅ with
                    | none => .eof
                    | some (body, s₆) =>
                      .ok ⟨url, status, headerLen, headerRaw, bodyLen, body, s₆⟩

/-- Lines 120–125: reconcile the content-length entry with the declared
body length; `none` models the uncaught `ValueError` of
`int(header[content_length_key])`. -/
def normalize_content_length (header : Dict) (clKey : PyStr) (bodyLen : Int) :
    Option Dict :=
  if ¬ dictMem header clKey then some (dictSet header clKey (intToPyStr bodyLen))
  else
    match pyIntStr (dictGetD header clKey []) with
    | none => none
    | some v =>
      if ¬ v = bodyLen then some (dictSet header clKey (intToPyStr bodyLen))
      else some header

/-- Lines 127–129: default an absent content-type to `text/html`. -/
def normalize_content_type (header : Dict) (ctKey : PyStr) : Dict :=
  if dictMem header ctKey then header else dictSet header ctKey (pstr "text/html")

/-- Lines 135–140: parse the (now present) date entry; on parse failure
overwrite it with the fallback string and use the fallback timestamp, on
success keep the header untouched. -/
def normalize_date_aux (h : Dict) (dateKey : PyStr) : Dict × DateTime :=
  match convert_date (dictGetD h dateKey []) with
  | some d => (h, d)
  | none => (dictSet h dateKey FINAL_DATE_HTTP, FINAL_DATE)

/-- Lines 131–140: default an absent date to the fallback string, then
parse as in `normalize_date_aux`. -/
def normalize_date (header : Dict) (dateKey : PyStr) : Dict × DateTime :=
  normalize_date_aux
    (if dictMem header dateKey then header
     else dictSet header dateKey FINAL_DATE_HTTP) dateKey

/-- Result of processing one record (one iteration of the `while True`
loop). -/
inductive RecStep where
  | eof
  | fatal (msg : String)
  /-- A zero header or body length: record skipped (`continue`). -/
  | skip (rest : List Nat)
  /-- A `Document` is yielded (minus its generated id). -/
  | emit (url : PyStr) (date : DateTime) (status : Int) (header : Dict)
      (body : List Nat) (rest : List Nat)
deriving DecidableEq, Repr

/-- The three header field names the extractor resolves. -/
def pCL : PyStr := pstr "Content-Length"

def pCT : PyStr := pstr "Content-Type"

def pDate : PyStr := pstr "Date"

/-- Content-length reconciliation of a framed record (lines 116 and
120–125). -/
def normalizeCL (f : Framing) : Option Dict :=
  normalize_content_length (parse_header f.headerRaw)
    (find_header_key (parse_header f.headerRaw) pCL) f.bodyLen

/-- Content-type defaulting (lines 117 and 127–129). -/
def normalizeCT (h₁ : Dict) : Dict :=
  normalize_content_type h₁ (find_header_key h₁ pCT)

/-- Date resolution (lines 118 and 131–140). -/
def normalizeDT (h₂ : Dict) : Dict × DateTime :=
  normalize_date h₂ (find_header_key h₂ pDate)

/-- The normalization tail of one loop iteration, after the zero-length
check. -/
def extractEmit (f : Framing) : RecStep :=
  match normalizeCL f with
  | none => .fatal "ValueError: content_length"
  | some h₁ =>
    .emit f.url (normalizeDT (normalizeCT h₁)).2 f.status
      (normalizeDT (normalizeCT h₁)).1 f.body f.rest

/-- One iteration of the extraction loop.  The source computes the three
`find_header_key` lookups before the first mutation; the intermediate
content-length and content-type updates never add, remove or reorder a
key matching a later lookup (the only keys they can add are
`Content-Length` and `Content-Type`, and in-place value updates keep the
key list unchanged), so looking each key up right before its use is
equivalent. -/
def extractRecord (s : List Nat) : RecStep :=
  match readFraming s with
  | .eof => .eof
  | .fatal msg => .fatal msg
  | .ok f =>
    if f.headerLen = 0 ∨ f.bodyLen = 0 then .skip f.rest
    else extractEmit f

/-- How the document stream ended: `clean` models the generator
returning (the caught `StopIteration`), `fatal` an uncaught exception. -/
inductive Termination where
  | clean
  | fatal (msg : String)
deriving DecidableEq, Repr

/-- The extraction loop, fuelled.  Every non-terminal step consumes at
least the URL line (one byte or more), so `s.length + 1` fuel always
suffices (`iterDocsAux_fuel_irrel`). `ids` supplies the `uuid4` values by
emission index. -/
def iterDocsAux (ids : Nat → PyStr) (idx : Nat) :
    Nat → List Nat → List Document × Termination
  | 0, _ => ([], .clean)
  | fuel + 1, s =>
    match extractRecord s with
    | .eof => ([], .clean)
    | .fatal msg => ([], .fatal msg)
    | .skip rest => iterDocsAux ids idx fuel rest
    | .emit url date status header body rest =>
      let r := iterDocsAux ids (idx + 1) fuel rest
      (⟨ids idx, url, date, status, header, body⟩ :: r.1, r.2)

/-- Source `iter_documents(p)`: the documents produced from the byte stream `s`,
together with how the stream ended. -/
def iter_documents (ids : Nat → PyStr) (s : List Nat) :
    List Document × Termination :=
  iterDocsAux ids 0 (s.length + 1) s

/-! ## Response synthesis (`make_http_response`) -/

/-- The `http.HTTPStatus` registry of CPython: value and reason phrase. -/
def statusPhrases : List (Int × PyStr) :=
  [(100, pstr "Continue"), (101, pstr "Switching Protocols"),
   (102, pstr "Processing"), (103, pstr "Early Hints"),
   (200, pstr "OK"), (201, pstr "Created"), (202, pstr "Accepted"),
   (203, pstr "Non-Authoritative Information"), (204, pstr "No Content"),
   (205, pstr "Reset Content"), (206, pstr "Partial Content"),
   (207, pstr "Multi-Status"), (208, pstr "Already Reported"),
   (226, pstr "IM Used"),
   (300, pstr "Multiple Choices"), (301, pstr "Moved Permanently"),
   (302, pstr "Found"), (303, pstr "See Other"), (304, pstr "Not Modified"),
   (305, pstr "Use Proxy"), (307, pstr "Temporary Redirect"),
   (308, pstr "Permanent Redirect"),
   (400, pstr "Bad Request"), (401, pstr "Unauthorized"),
   (402, pstr "Payment Required"), (403, pstr "Forbidden"),
   (404, pstr "Not Found"), (405, pstr "Method Not Allowed"),
   (406, pstr "Not Acceptable"), (407, pstr "Proxy Authentication Required"),
   (408, pstr "Request Timeout"), (409, pstr "Conflict"), (410, pstr "Gone"),
   (411, pstr "Length Required"), (412, pstr "Precondition Failed"),
   (413, pstr "Request Entity Too Large"), (414, pstr "Request-URI Too Long"),
   (415, pstr "Unsupported Media Type"),
   (416, pstr "Requested Range Not Satisfiable"),
   (417, pstr "Expectation Failed"), (418, pstr "I\x27m a Teapot"),
   (421, pstr "Misdirected Request"), (422, pstr "Unprocessable Entity"),
   (423, pstr "Locked"), (424, pstr "Failed Dependency"),
   (425, pstr "Too Early"), (426, pstr "Upgrade Required"),
   (428, pstr "Precondition Required"), (429, pstr "Too Many Requests"),
   (431, pstr "Request Header Fields Too Large"),
   (451, pstr "Unavailable For Legal Reasons"),
   (500, pstr "Internal Server Error"), (501, pstr "Not Implemented"),
   (502, pstr "Bad Gateway"), (503, pstr "Service Unavailable"),
   (504, pstr "Gateway Timeout"), (505, pstr "HTTP Version Not Supported"),
   (506, pstr "Variant Also Negotiates"), (507, pstr "Insufficient Storage"),
   (508, pstr "Loop Detected"), (510, pstr "Not Extended"),
   (511, pstr "Network Authentication Required")]

/-- Python `http.HTTPStatus(code).phrase`, `none` when the `ValueError` of an
unknown code is raised (caught by the source with a warning). -/
def lookupPhrase (code : Int) : Option PyStr :=
  (statusPhrases.find? (fun p => p.1 = code)).map (fun p => p.2)

/-- The f-string `f"{doc.status} {phrase}"`, or `str(doc.status)` when the status code
is not in the registry. -/
def statusMessage (status : Int) : PyStr :=
  match lookupPhrase status with
  | some phrase => intToPyStr status ++ pstr " " ++ phrase
  | none => intToPyStr status

/-- Encode each header entry as `Key: Value\r\n` in insertion order
(latin-1; `none` models the `UnicodeEncodeError` on a code point ≥ 256,
which cannot happen for headers decoded from bytes). -/
def encodeHeaderLines : Dict → Option (List Nat)
  | [] => some []
  | kv :: rest =>
    match latin1Encode kv.1, latin1Encode kv.2, encodeHeaderLines rest with
    | some k, some v, some r => some (k ++ pstr ": " ++ v ++ pstr "\r\n" ++ r)
    | _, _, _ => none

/-- Source `make_http_response(doc)`: status line, header lines in insertion
order, blank line, then the body bytes verbatim. -/
def make_http_response (doc : Document) : Option (List Nat) :=
  match asciiEncode (pstr "HTTP/1.1 " ++ statusMessage doc.status ++ pstr "\r\n"),
      encodeHeaderLines doc.header with
  | some statusLine, some headerLines =>
    some (statusLine ++ headerLines ++ pstr "\r\n" ++ doc.body)
  | _, _ => none

/-! ## Record encoding (`make_warc_record`, `main`) -/

/-- Python `doc.date.strftime("%Y-%m-%dT%H:%M:%SZ")`: glibc `%Y` prints the year
unpadded; the other fields are zero-padded to two digits. -/
def pad2 (n : Nat) : List Nat := if n < 10 then [48, 48 + n] else natToDec n

def strftimeWarc (d : DateTime) : PyStr :=
  natToDec d.year ++ pstr "-" ++ pad2 d.month ++ pstr "-" ++ pad2 d.day ++
  pstr "T" ++ pad2 d.hour ++ pstr ":" ++ pad2 d.minute ++ pstr ":" ++
  pad2 d.second ++ pstr "Z"

/-- Source `make_warc_record(doc)`: the fixed-field WARC header, a blank line,
then the synthesized HTTP response. -/
def make_warc_record (doc : Document) : Option (List Nat) :=
  match make_http_response doc,
      asciiEncode (pstr "WARC-Record-ID: <urn:uuid:" ++ doc.id ++ pstr ">\r\n"),
      asciiEncode (pstr "WARC-Date: " ++ strftimeWarc doc.date ++ pstr "\r\n"),
      asciiEncode (pstr "WARC-Target-URI: " ++ doc.url ++ pstr "\r\n") with
  | some payload, some idLine, some dateLine, some uriLine =>
    match asciiEncode (pstr "Content-Length: " ++ natToDec payload.length ++ pstr "\r\n") with
    | some lenLine =>
      some (pstr "WARC/1.0\r\n" ++ pstr "WARC-Type: response\r\n" ++
        idLine ++ dateLine ++ uriLine ++ lenLine ++
        pstr "Content-Type: application/http; msgtype=response\r\n" ++
        pstr "\r\n" ++ payload)
    | none => none
  | _, _, _, _ => none

/-- The WARC records of a document list, one per document in emission
order. -/
def warcRecords : List Document → Option (List (List Nat))
  | [] => some []
  | doc :: docs =>
    match make_warc_record doc, warcRecords docs with
    | some record, some records => some (record :: records)
    | _, _ => none

/-- The output loop of `main`: for each document in emission order,
gzip-compress its WARC record on its own (`gzip.compress` is a standalone
compression unit per call) and append it to the output file.  The
compression function is external (`gzip`), so it is a parameter. -/
def mainOutput (compress : List Nat → List Nat) : List Document → Option (List Nat)
  | [] => some []
  | doc :: docs =>
    match make_warc_record doc, mainOutput compress docs with
    | some record, some rest => some (compress record ++ rest)
    | _, _ => none

/-! ## Stream-consumption lemmas and fuel adequacy -/

theorem readChunkLine_length {s l r : List Nat}
    (h : readChunkLine s = some (l, r)) : r.length < s.length := by
  induction s generalizing l r with
  | nil => simp [readChunkLine] at h
  | cons b rest ih =>
    rw [readChunkLine] at h
    by_cases hb : b = 10
    · simp only [hb, if_pos rfl] at h
      cases h
      simp
    · rw [if_neg hb] at h
      cases hrec : readChunkLine rest with
      | none => rw [hrec] at h; cases h
      | some p =>
        rw [hrec] at h
        cases h
        have hlt : p.2.length < rest.length := ih (by rw [hrec])
        simpa using Nat.lt_succ_of_lt hlt

theorem readChunkN_length {n : Int} {s c r : List Nat}
    (h : readChunkN n s = some (c, r)) : r.length ≤ s.length := by
  rw [readChunkN] at h
  split at h
  · cases h
  · cases h
    simp [Nat.sub_le]

theorem readFraming_rest_length {s : List Nat} {f : Framing}
    (h : readFraming s = .ok f) : f.rest.length < s.length := by
  rw [readFraming] at h
  split at h <;> try cases h
  rename_i urlChunk s₁ h₁
  split at h <;> try cases h
  split at h <;> try cases h
  rename_i statusChunk s₂ h₂
  split at h <;> try cases h
  split at h <;> try cases h
  rename_i hlChunk s₃ h₃
  split at h <;> try cases h
  split at h <;> try cases h
  rename_i headerRaw s₄ h₄
  split at h <;> try cases h
  rename_i blChunk s₅ h₅
  split at h <;> try cases h
  split at h <;> try cases h
  rename_i body s₆ h₆
  have l₁ := readChunkLine_length h₁
  have l₂ := readChunkLine_length h₂
  have l₃ := readChunkLine_length h₃
  have l₄ := readChunkN_length h₄
  have l₅ := readChunkLine_length h₅
  have l₆ := readChunkN_length h₆
  simp only [Framing.rest]
  omega

theorem extractEmit_rest {f : Framing} {url : PyStr} {date : DateTime}
    {status : Int} {header : Dict} {body rest : List Nat}
    (h : extractEmit f = .emit url date status header body rest) :
    rest = f.rest := by
  rw [extractEmit] at h
  split at h <;> cases h
  rfl

theorem extractEmit_not_skip {f : Framing} {rest : List Nat}
    (h : extractEmit f = .skip rest) : False := by
  rw [extractEmit] at h
  split at h <;> cases h

theorem extractRecord_skip_length {s rest : List Nat}
    (h : extractRecord s = .skip rest) : rest.length < s.length := by
  rw [extractRecord] at h
  split at h <;> try cases h
  rename_i f hf
  split at h
  · cases h
    exact readFraming_rest_length hf
  · exact absurd h extractEmit_not_skip

theorem extractRecord_emit_length {s : List Nat} {url : PyStr} {date : DateTime}
    {status : Int} {header : Dict} {body rest : List Nat}
    (h : extractRecord s = .emit url date status header body rest) :
    rest.length < s.length := by
  rw [extractRecord] at h
  split at h <;> try cases h
  rename_i f hf
  split at h
  · cases h
  · rw [extractEmit_rest h]
    exact readFraming_rest_length hf

/-- The fuelled loop is independent of the fuel once the fuel exceeds the
stream length (every `skip`/`emit` step consumes at least one byte). -/
theorem iterDocsAux_fuel_irrel (ids : Nat → PyStr) :
    ∀ fuel₁ : Nat, ∀ fuel₂ idx : Nat, ∀ s : List Nat,
    s.length < fuel₁ → s.length < fuel₂ →
    iterDocsAux ids idx fuel₁ s = iterDocsAux ids idx fuel₂ s := by
  intro fuel₁
  induction fuel₁ with
  | zero => intro fuel₂ idx s h₁ _; omega
  | succ n₁ ih =>
    intro fuel₂ idx s h₁ h₂
    match fuel₂, h₂ with
    | n₂ + 1, _ =>
      rw [iterDocsAux, iterDocsAux]
      cases hstep : extractRecord s with
      | eof => rfl
      | fatal msg => rfl
      | skip rest =>
        have hlen := extractRecord_skip_length hstep
        exact ih n₂ idx rest (by omega) (by omega)
      | emit url date status header body rest =>
        have hlen := extractRecord_emit_length hstep
        have heq := ih n₂ (idx + 1) rest (by omega) (by omega)
        dsimp only
        rw [heq]

theorem iter_documents_eof {ids : Nat → PyStr} {s : List Nat}
    (h : extractRecord s = .eof) : iter_documents ids s = ([], .clean) := by
  rw [iter_documents, iterDocsAux, h]

theorem iter_documents_fatal {ids : Nat → PyStr} {s : List Nat} {msg : String}
    (h : extractRecord s = .fatal msg) :
    iter_documents ids s = ([], .fatal msg) := by
  rw [iter_documents, iterDocsAux, h]

theorem iter_documents_skip {ids : Nat → PyStr} {s rest : List Nat}
    (h : extractRecord s = .skip rest) :
    iter_documents ids s = iter_documents ids rest := by
  have hlen := extractRecord_skip_length h
  rw [iter_documents, iter_documents, iterDocsAux, h]
  exact iterDocsAux_fuel_irrel ids _ _ _ _ (by omega) (by omega)

/-! ## Dictionary and case-insensitive lookup lemmas -/

/-- The header has some key equal to `key` ignoring case (the condition
under which `find_header_key` finds an existing key). -/
def hasKeyCI (d : Dict) (key : PyStr) : Bool :=
  d.any (fun kv => kv.1.map pyLower = key.map pyLower)

theorem dictMem_iff {d : Dict} {k : PyStr} :
    dictMem d k = true ↔ ∃ kv ∈ d, kv.1 = k := by
  simp [dictMem, List.any_eq_true]

theorem hasKeyCI_iff {d : Dict} {key : PyStr} :
    hasKeyCI d key = true ↔ ∃ kv ∈ d, kv.1.map pyLower = key.map pyLower := by
  simp [hasKeyCI, List.any_eq_true]

theorem find_header_key_lowEq (d : Dict) (key : PyStr) :
    (find_header_key d key).map pyLower = key.map pyLower := by
  rw [find_header_key]
  cases hf : d.find? (fun kv => kv.1.map pyLower = key.map pyLower) with
  | none => rfl
  | some kv => simpa using List.find?_some hf

theorem dictMem_find_header_key {d : Dict} {key : PyStr}
    (h : hasKeyCI d key = true) : dictMem d (find_header_key d key) = true := by
  rw [find_header_key]
  cases hf : d.find? (fun kv => kv.1.map pyLower = key.map pyLower) with
  | none =>
    exfalso
    obtain ⟨kv, hmem, hkv⟩ := hasKeyCI_iff.mp h
    have := List.find?_eq_none.mp hf kv hmem
    simp [hkv] at this
  | some kv =>
    exact dictMem_iff.mpr ⟨kv, List.mem_of_find?_eq_some hf, rfl⟩

theorem hasKeyCI_of_dictMem {d : Dict} {k key : PyStr}
    (hm : dictMem d k = true) (hl : k.map pyLower = key.map pyLower) :
    hasKeyCI d key = true := by
  obtain ⟨kv, hmem, hk⟩ := dictMem_iff.mp hm
  exact hasKeyCI_iff.mpr ⟨kv, hmem, by rw [hk, hl]⟩

theorem dictMem_of_not_hasKeyCI {d : Dict} {key : PyStr}
    (h : hasKeyCI d key = false) : dictMem d key = false := by
  cases hm : dictMem d key with
  | false => rfl
  | true => rw [hasKeyCI_of_dictMem hm rfl] at h; cases h

theorem find_header_key_of_not_hasKeyCI {d : Dict} {key : PyStr}
    (h : hasKeyCI d key = false) : find_header_key d key = key := by
  rw [find_header_key]
  cases hf : d.find? (fun kv => kv.1.map pyLower = key.map pyLower) with
  | none => rfl
  | some kv =>
    exfalso
    have hk : hasKeyCI d key = true :=
      hasKeyCI_iff.mpr ⟨kv, List.mem_of_find?_eq_some hf, by simpa using List.find?_some hf⟩
    rw [hk] at h
    cases h

theorem find_header_key_cons_pos {kv : PyStr × PyStr} {d : Dict} {key : PyStr}
    (h : kv.1.map pyLower = key.map pyLower) :
    find_header_key (kv :: d) key = kv.1 := by
  simp [find_header_key, List.find?, h]

theorem find_header_key_cons_neg {kv : PyStr × PyStr} {d : Dict} {key : PyStr}
    (h : ¬ kv.1.map pyLower = key.map pyLower) :
    find_header_key (kv :: d) key = find_header_key d key := by
  simp [find_header_key, List.find?, h]

theorem dictGetD_cons (kv : PyStr × PyStr) (d : Dict) (k dflt : PyStr) :
    dictGetD (kv :: d) k dflt = if kv.1 = k then kv.2 else dictGetD d k dflt := by
  by_cases h : kv.1 = k <;> simp [dictGetD, List.find?, h]

theorem dictGetD_dictSet_self (d : Dict) (k v dflt : PyStr) :
    dictGetD (dictSet d k v) k dflt = v := by
  induction d with
  | nil => simp [dictSet, dictGetD, List.find?]
  | cons kv rest ih =>
    rw [dictSet]
    by_cases hk : kv.1 = k
    · simp [dictGetD_cons, hk]
    · rw [if_neg hk, dictGetD_cons, if_neg hk]
      exact ih

theorem dictGetD_dictSet_ne {k' k : PyStr} (d : Dict) (v dflt : PyStr)
    (h : ¬ k' = k) : dictGetD (dictSet d k' v) k dflt = dictGetD d k dflt := by
  induction d with
  | nil => simp [dictSet, dictGetD, List.find?, h]
  | cons kv rest ih =>
    rw [dictSet]
    by_cases hk : kv.1 = k'
    · rw [if_pos hk, dictGetD_cons, dictGetD_cons]
      simp only [hk]
      rw [if_neg h, if_neg h]
    · rw [if_neg hk, dictGetD_cons, dictGetD_cons, ih]

theorem dictMem_dictSet_iff {d : Dict} {k v k' : PyStr} :
    dictMem (dictSet d k v) k' = true ↔ (dictMem d k' = true ∨ k' = k) := by
  induction d with
  | nil => simp [dictSet, dictMem, eq_comm]
  | cons kv rest ih =>
    rw [dictSet]
    by_cases hk : kv.1 = k
    · simp only [if_pos hk, dictMem, List.any_cons, Bool.or_eq_true,
        decide_eq_true_eq] at *
      constructor
      · rintro (h | h)
        · exact Or.inl (Or.inl h)
        · exact Or.inl (Or.inr h)
      · rintro ((h | h) | h)
        · exact Or.inl h
        · exact Or.inr h
        · exact Or.inl (by rw [hk, h])
    · simp only [if_neg hk, dictMem, List.any_cons, Bool.or_eq_true,
        decide_eq_true_eq] at *
      rw [ih]
      tauto

theorem hasKeyCI_dictSet_iff {d : Dict} {k v key : PyStr} :
    hasKeyCI (dictSet d k v) key = true ↔
      (hasKeyCI d key = true ∨ k.map pyLower = key.map pyLower) := by
  induction d with
  | nil => simp [dictSet, hasKeyCI]
  | cons kv rest ih =>
    rw [dictSet]
    by_cases hk : kv.1 = k
    · simp only [if_pos hk, hasKeyCI, List.any_cons, Bool.or_eq_true,
        decide_eq_true_eq] at *
      constructor
      · rintro (h | h)
        · exact Or.inl (Or.inl h)
        · exact Or.inl (Or.inr h)
      · rintro ((h | h) | h)
        · exact Or.inl h
        · exact Or.inr h
        · exact Or.inl (by rw [hk, h])
    · simp only [if_neg hk, hasKeyCI, List.any_cons, Bool.or_eq_true,
        decide_eq_true_eq] at *
      rw [ih]
      tauto

theorem map_fst_dictSet_of_mem {d : Dict} {k : PyStr} (v : PyStr)
    (h : dictMem d k = true) :
    (dictSet d k v).map Prod.fst = d.map Prod.fst := by
  induction d with
  | nil => simp [dictMem] at h
  | cons kv rest ih =>
    rw [dictSet]
    by_cases hk : kv.1 = k
    · simp [hk]
    · have h' : dictMem rest k = true := by
        rw [dictMem, List.any_cons, Bool.or_eq_true] at h
        rcases h with h | h
        · exact absurd (by simpa using h) hk
        · exact h
      simp [hk, ih h']

theorem dictSet_of_not_mem {d : Dict} {k : PyStr} (v : PyStr)
    (h : dictMem d k = false) : dictSet d k v = d ++ [(k, v)] := by
  induction d with
  | nil => simp [dictSet]
  | cons kv rest ih =>
    rw [dictMem, List.any_cons, Bool.or_eq_false_iff] at h
    have hk : ¬ kv.1 = k := by simpa using h.1
    rw [dictSet, if_neg hk, ih h.2]
    simp

theorem find_header_key_congr {d₁ d₂ : Dict}
    (h : d₁.map Prod.fst = d₂.map Prod.fst) (key : PyStr) :
    find_header_key d₁ key = find_header_key d₂ key := by
  induction d₁ generalizing d₂ with
  | nil =>
    cases d₂ with
    | nil => rfl
    | cons kv rest => simp at h
  | cons kv rest ih =>
    cases d₂ with
    | nil => simp at h
    | cons kv₂ rest₂ =>
      simp only [List.map_cons, List.cons.injEq] at h
      by_cases hp : kv.1.map pyLower = key.map pyLower
      · rw [find_header_key_cons_pos hp, find_header_key_cons_pos (by rw [← h.1]; exact hp)]
        exact h.1
      · rw [find_header_key_cons_neg hp, find_header_key_cons_neg (by rw [← h.1]; exact hp)]
        exact ih h.2

theorem find_header_key_append_nomatch {d : Dict} {k v key : PyStr}
    (h : ¬ k.map pyLower = key.map pyLower) :
    find_header_key (d ++ [(k, v)]) key = find_header_key d key := by
  induction d with
  | nil => simp [find_header_key, List.find?, h]
  | cons kv rest ih =>
    by_cases hp : kv.1.map pyLower = key.map pyLower
    · rw [List.cons_append, find_header_key_cons_pos hp, find_header_key_cons_pos hp]
    · rw [List.cons_append, find_header_key_cons_neg hp, find_header_key_cons_neg hp, ih]

theorem find_header_key_append_match {d : Dict} {k v key : PyStr}
    (hno : hasKeyCI d key = false) (h : k.map pyLower = key.map pyLower) :
    find_header_key (d ++ [(k, v)]) key = k := by
  induction d with
  | nil => simpa using find_header_key_cons_pos h
  | cons kv rest ih =>
    rw [hasKeyCI, List.any_cons, Bool.or_eq_false_iff] at hno
    have hp : ¬ kv.1.map pyLower = key.map pyLower := by simpa using hno.1
    rw [List.cons_append, find_header_key_cons_neg hp, ih hno.2]

theorem dictMem_keys_iff {d : Dict} {k : PyStr} :
    dictMem d k = true ↔ k ∈ d.map Prod.fst := by
  rw [dictMem_iff]
  constructor
  · rintro ⟨kv, hmem, hk⟩
    exact List.mem_map.mpr ⟨kv, hmem, hk⟩
  · intro h
    obtain ⟨kv, hmem, hk⟩ := List.mem_map.mp h
    exact ⟨kv, hmem, hk⟩

theorem nodup_keys_dictSet {d : Dict} (k v : PyStr)
    (h : (d.map Prod.fst).Nodup) : ((dictSet d k v).map Prod.fst).Nodup := by
  cases hm : dictMem d k with
  | true => rw [map_fst_dictSet_of_mem v hm]; exact h
  | false =>
    rw [dictSet_of_not_mem v hm]
    have hk : k ∉ d.map Prod.fst := fun hmem =>
      by rw [dictMem_keys_iff.mpr hmem] at hm; cases hm
    simp only [List.map_append, List.map_cons, List.map_nil]
    rw [List.nodup_append]
    refine ⟨h, List.nodup_singleton k, ?_⟩
    intro a ha hmem
    rw [List.mem_singleton] at hmem
    exact hk (hmem ▸ ha)

/-! ## Normalization lemmas -/

theorem convert_date_FINAL_DATE_HTTP :
    convert_date FINAL_DATE_HTTP = some ⟨2010, 9, 30, 23, 59, 59⟩ := by decide

theorem FINAL_DATE_eq : FINAL_DATE = ⟨2010, 9, 30, 23, 59, 59⟩ := by
  rw [FINAL_DATE, convert_date_FINAL_DATE_HTTP]
  rfl

theorem convert_date_FINAL : convert_date FINAL_DATE_HTTP = some FINAL_DATE := by
  rw [convert_date_FINAL_DATE_HTTP, FINAL_DATE_eq]

theorem low_CT_ne_CL : ¬ pCT.map pyLower = pCL.map pyLower := by decide

theorem low_Date_ne_CL : ¬ pDate.map pyLower = pCL.map pyLower := by decide

theorem low_Date_ne_CT : ¬ pDate.map pyLower = pCT.map pyLower := by decide

/-- If the header had no matching content-length key, the branch of
`normalize_content_length` that runs is the silent set. -/
theorem normalize_content_length_absent {header : Dict} {bodyLen : Int}
    (h : hasKeyCI header pCL = false) :
    normalize_content_length header (find_header_key header pCL) bodyLen =
      some (dictSet header pCL (intToPyStr bodyLen)) := by
  rw [find_header_key_of_not_hasKeyCI h, normalize_content_length,
    if_pos (by rw [dictMem_of_not_hasKeyCI h]; simp)]

/-- After a successful `normalize_content_length`, the header has a
case-insensitive content-length entry. -/
theorem normalize_content_length_hasKeyCI {header h₁ : Dict} {bodyLen : Int}
    (h : normalize_content_length header (find_header_key header pCL) bodyLen =
      some h₁) : hasKeyCI h₁ pCL = true := by
  rw [normalize_content_length] at h
  split at h
  · cases h
    exact hasKeyCI_dictSet_iff.mpr (Or.inr (find_header_key_lowEq header pCL))
  · rename_i hm
    rw [not_not] at hm
    split at h
    · cases h
    · split at h <;> cases h
      · exact hasKeyCI_dictSet_iff.mpr (Or.inr (find_header_key_lowEq header pCL))
      · exact hasKeyCI_of_dictMem hm (find_header_key_lowEq header pCL)

/-- The final content-length entry after reconciliation: either the
rendered observed length (absent or mismatched declared value), or the
original entry, kept only when it already parsed to the observed
length. -/
theorem normalize_content_length_value {header h₁ : Dict} {bodyLen : Int}
    (h : normalize_content_length header (find_header_key header pCL) bodyLen =
      some h₁) :
    dictGetD h₁ (find_header_key h₁ pCL) [] = intToPyStr bodyLen ∨
    (hasKeyCI header pCL = true ∧
      pyIntStr (dictGetD header (find_header_key header pCL) []) = some bodyLen ∧
      h₁ = header) := by
  rw [normalize_content_length] at h
  split at h
  · rename_i hm
    rw [Bool.not_eq_true] at hm
    have hno : hasKeyCI header pCL = false := by
      cases hk : hasKeyCI header pCL with
      | false => rfl
      | true => rw [dictMem_find_header_key hk] at hm; cases hm
    rw [find_header_key_of_not_hasKeyCI hno] at hm h
    cases h
    left
    rw [dictSet_of_not_mem _ hm, find_header_key_append_match hno rfl,
      ← dictSet_of_not_mem _ hm, dictGetD_dictSet_self]
  · rename_i hm
    rw [not_not] at hm
    have hci : hasKeyCI header pCL = true :=
      hasKeyCI_of_dictMem hm (find_header_key_lowEq header pCL)
    split at h
    · cases h
    · rename_i v hv
      split at h <;> cases h
      · left
        rw [find_header_key_congr (map_fst_dictSet_of_mem _ hm) pCL,
          dictGetD_dictSet_self]
      · rename_i hvv
        rw [not_not] at hvv
        exact Or.inr ⟨hci, by rw [hv, hvv], rfl⟩

/-- The step `normalize_content_type` guarantees a content-type entry. -/
theorem normalizeCT_hasKeyCI (h₁ : Dict) : hasKeyCI (normalizeCT h₁) pCT = true := by
  rw [normalizeCT, normalize_content_type]
  split
  · rename_i hm
    exact hasKeyCI_of_dictMem hm (find_header_key_lowEq h₁ pCT)
  · exact hasKeyCI_dictSet_iff.mpr (Or.inr (find_header_key_lowEq h₁ pCT))

theorem hasKeyCI_normalizeCT_mono {h₁ : Dict} {key : PyStr}
    (h : hasKeyCI h₁ key = true) : hasKeyCI (normalizeCT h₁) key = true := by
  rw [normalizeCT, normalize_content_type]
  split
  · exact h
  · exact hasKeyCI_dictSet_iff.mpr (Or.inl h)

/-- The step `normalize_content_type` does not disturb lookups or entries for a
field name that is not case-insensitively `Content-Type`. -/
theorem normalizeCT_preserve {h₁ : Dict} {key : PyStr}
    (hne : ¬ pCT.map pyLower = key.map pyLower) :
    find_header_key (normalizeCT h₁) key = find_header_key h₁ key ∧
    ∀ k dflt, k.map pyLower = key.map pyLower →
      dictGetD (normalizeCT h₁) k dflt = dictGetD h₁ k dflt := by
  rw [normalizeCT, normalize_content_type]
  split
  · exact ⟨rfl, fun _ _ _ => rfl⟩
  · rename_i hm
    rw [Bool.not_eq_true] at hm
    have hno : hasKeyCI h₁ pCT = false := by
      cases hk : hasKeyCI h₁ pCT with
      | false => rfl
      | true => rw [dictMem_find_header_key hk] at hm; cases hm
    rw [find_header_key_of_not_hasKeyCI hno] at hm ⊢
    constructor
    · rw [dictSet_of_not_mem _ hm]
      exact find_header_key_append_nomatch hne
    · intro k dflt hk
      refine dictGetD_dictSet_ne _ _ _ (fun he => hne ?_)
      rw [← he] at hk
      exact hk

theorem normalize_date_aux_some {h : Dict} {k : PyStr} {d : DateTime}
    (hc : convert_date (dictGetD h k []) = some d) :
    normalize_date_aux h k = (h, d) := by
  rw [normalize_date_aux, hc]

theorem normalize_date_aux_none {h : Dict} {k : PyStr}
    (hc : convert_date (dictGetD h k []) = none) :
    normalize_date_aux h k = (dictSet h k FINAL_DATE_HTTP, FINAL_DATE) := by
  rw [normalize_date_aux, hc]

theorem normalize_date_of_mem {header : Dict} {dateKey : PyStr}
    (hm : dictMem header dateKey = true) :
    normalize_date header dateKey = normalize_date_aux header dateKey := by
  rw [normalize_date, if_pos hm]

theorem normalize_date_of_not_mem {header : Dict} {dateKey : PyStr}
    (hm : dictMem header dateKey = false) :
    normalize_date header dateKey =
      normalize_date_aux (dictSet header dateKey FINAL_DATE_HTTP) dateKey := by
  rw [normalize_date, if_neg (by rw [hm]; simp)]

/-- When the date key is absent, `normalizeDT` sets the fallback string
and resolves the fallback timestamp. -/
theorem normalizeDT_absent {h₂ : Dict} (hno : hasKeyCI h₂ pDate = false) :
    normalizeDT h₂ = (dictSet h₂ pDate FINAL_DATE_HTTP, FINAL_DATE) := by
  have hfd : find_header_key h₂ pDate = pDate := find_header_key_of_not_hasKeyCI hno
  have hm : dictMem h₂ pDate = false := dictMem_of_not_hasKeyCI hno
  have hc : convert_date (dictGetD (dictSet h₂ pDate FINAL_DATE_HTTP) pDate []) =
      some FINAL_DATE := by
    rw [dictGetD_dictSet_self]
    exact convert_date_FINAL
  rw [normalizeDT, hfd, normalize_date_of_not_mem hm, normalize_date_aux_some hc]

/-- When the date entry is present and parses, `normalizeDT` keeps the
header exactly as written and uses the parsed timestamp. -/
theorem normalizeDT_present_some {h₂ : Dict} {d : DateTime}
    (hci : hasKeyCI h₂ pDate = true)
    (hc : convert_date (dictGetD h₂ (find_header_key h₂ pDate) []) = some d) :
    normalizeDT h₂ = (h₂, d) := by
  rw [normalizeDT, normalize_date_of_mem (dictMem_find_header_key hci),
    normalize_date_aux_some hc]

/-- When the date entry is present but does not parse, `normalizeDT`
overwrites it with the fallback string and uses the fallback
timestamp. -/
theorem normalizeDT_present_none {h₂ : Dict}
    (hci : hasKeyCI h₂ pDate = true)
    (hc : convert_date (dictGetD h₂ (find_header_key h₂ pDate) []) = none) :
    normalizeDT h₂ =
      (dictSet h₂ (find_header_key h₂ pDate) FINAL_DATE_HTTP, FINAL_DATE) := by
  rw [normalizeDT, normalize_date_of_mem (dictMem_find_header_key hci),
    normalize_date_aux_none hc]

/-- The date invariant established by `normalize_date`: the final header
has a date entry, and converting its value yields exactly the resolved
timestamp (on parse failure the entry has been overwritten with the
fallback string, which parses to the fallback timestamp). -/
theorem normalizeDT_inv (h₂ : Dict) :
    hasKeyCI (normalizeDT h₂).1 pDate = true ∧
    convert_date (dictGetD (normalizeDT h₂).1
      (find_header_key (normalizeDT h₂).1 pDate) []) = some (normalizeDT h₂).2 := by
  cases hci : hasKeyCI h₂ pDate with
  | false =>
    rw [normalizeDT_absent hci]
    have hm : dictMem h₂ pDate = false := dictMem_of_not_hasKeyCI hci
    constructor
    · exact hasKeyCI_dictSet_iff.mpr (Or.inr rfl)
    · rw [dictSet_of_not_mem _ hm, find_header_key_append_match hci rfl,
        ← dictSet_of_not_mem _ hm, dictGetD_dictSet_self]
      exact convert_date_FINAL
  | true =>
    have hm : dictMem h₂ (find_header_key h₂ pDate) = true :=
      dictMem_find_header_key hci
    cases hc : convert_date (dictGetD h₂ (find_header_key h₂ pDate) []) with
    | some d =>
      rw [normalizeDT_present_some hci hc]
      exact ⟨hci, hc⟩
    | none =>
      rw [normalizeDT_present_none hci hc]
      constructor
      · exact hasKeyCI_dictSet_iff.mpr (Or.inl hci)
      · rw [find_header_key_congr (map_fst_dictSet_of_mem _ hm) pDate,
          dictGetD_dictSet_self]
        exact convert_date_FINAL

theorem hasKeyCI_normalizeDT_mono {h₂ : Dict} {key : PyStr}
    (h : hasKeyCI h₂ key = true) : hasKeyCI (normalizeDT h₂).1 key = true := by
  cases hci : hasKeyCI h₂ pDate with
  | false =>
    rw [normalizeDT_absent hci]
    exact hasKeyCI_dictSet_iff.mpr (Or.inl h)
  | true =>
    cases hc : convert_date (dictGetD h₂ (find_header_key h₂ pDate) []) with
    | some d => rw [normalizeDT_present_some hci hc]; exact h
    | none =>
      rw [normalizeDT_present_none hci hc]
      exact hasKeyCI_dictSet_iff.mpr (Or.inl h)

/-- The step `normalize_date` does not disturb lookups or entries for a field name
that is not case-insensitively `Date`. -/
theorem normalizeDT_preserve {h₂ : Dict} {key : PyStr}
    (hne : ¬ pDate.map pyLower = key.map pyLower) :
    find_header_key (normalizeDT h₂).1 key = find_header_key h₂ key ∧
    ∀ k dflt, k.map pyLower = key.map pyLower →
      dictGetD (normalizeDT h₂).1 k dflt = dictGetD h₂ k dflt := by
  have hdk : ∀ k : PyStr, k.map pyLower = key.map pyLower →
      ¬ find_header_key h₂ pDate = k := by
    intro k hk he
    have hlow := find_header_key_lowEq h₂ pDate
    rw [he, hk] at hlow
    exact hne hlow.symm
  cases hci : hasKeyCI h₂ pDate with
  | false =>
    rw [normalizeDT_absent hci]
    have hm : dictMem h₂ pDate = false := dictMem_of_not_hasKeyCI hci
    constructor
    · rw [dictSet_of_not_mem _ hm]
      exact find_header_key_append_nomatch hne
    · intro k dflt hk
      refine dictGetD_dictSet_ne _ _ _ (fun he => hne ?_)
      rw [← he] at hk
      exact hk
  | true =>
    have hm : dictMem h₂ (find_header_key h₂ pDate) = true :=
      dictMem_find_header_key hci
    cases hc : convert_date (dictGetD h₂ (find_header_key h₂ pDate) []) with
    | some d =>
      rw [normalizeDT_present_some hci hc]
      exact ⟨rfl, fun _ _ _ => rfl⟩
    | none =>
      rw [normalizeDT_present_none hci hc]
      refine ⟨find_header_key_congr (map_fst_dictSet_of_mem _ hm) key, ?_⟩
      intro k dflt hk
      exact dictGetD_dictSet_ne _ _ _ (hdk k hk)

/-! ## Extraction-level lemmas -/

theorem readChunkN_chunk_length {n : Int} {s c r : List Nat}
    (h : readChunkN n s = some (c, r)) : c.length = n.toNat := by
  rw [readChunkN] at h
  split at h
  · cases h
  · rename_i hlen
    cases h
    rw [List.length_take]
    omega

/-- A successfully framed record's body block has exactly the declared
number of bytes (`Int.toNat` of it: a negative declared length reads zero
bytes). -/
theorem readFraming_body_length {s : List Nat} {f : Framing}
    (h : readFraming s = .ok f) : f.body.length = f.bodyLen.toNat := by
  rw [readFraming] at h
  split at h <;> try cases h
  split at h <;> try cases h
  split at h <;> try cases h
  split at h <;> try cases h
  split at h <;> try cases h
  split at h <;> try cases h
  split at h <;> try cases h
  split at h <;> try cases h
  split at h <;> try cases h
  split at h <;> try cases h
  rename_i body s₆ h₆
  exact readChunkN_chunk_length h₆

/-- Decomposition of a successful `extractEmit`. -/
theorem extractEmit_elim {f : Framing} {url : PyStr} {date : DateTime}
    {status : Int} {h : Dict} {body rest : List Nat}
    (he : extractEmit f = .emit url date status h body rest) :
    url = f.url ∧ status = f.status ∧ body = f.body ∧ rest = f.rest ∧
    ∃ h₁, normalizeCL f = some h₁ ∧ h = (normalizeDT (normalizeCT h₁)).1 ∧
      date = (normalizeDT (normalizeCT h₁)).2 := by
  rw [extractEmit] at he
  split at he
  · cases he
  · rename_i h₁ heq
    cases he
    exact ⟨rfl, rfl, rfl, rfl, h₁, heq, rfl, rfl⟩

/-- Decomposition of an `extractRecord` that emits. -/
theorem extractRecord_elim {s : List Nat} {url : PyStr} {date : DateTime}
    {status : Int} {h : Dict} {body rest : List Nat}
    (he : extractRecord s = .emit url date status h body rest) :
    ∃ f, readFraming s = .ok f ∧ ¬ (f.headerLen = 0 ∨ f.bodyLen = 0) ∧
      extractEmit f = .emit url date status h body rest := by
  rw [extractRecord] at he
  split at he <;> try cases he
  rename_i f hf
  split at he
  · cases he
  · rename_i hz
    exact ⟨f, hf, hz, he⟩

/-- The normalization invariant carried by every emitted document's
header. -/
theorem extractRecord_emit_inv {s : List Nat} {url : PyStr} {date : DateTime}
    {status : Int} {h : Dict} {body rest : List Nat}
    (he : extractRecord s = .emit url date status h body rest) :
    hasKeyCI h pCL = true ∧ hasKeyCI h pCT = true ∧ hasKeyCI h pDate = true ∧
    convert_date (dictGetD h (find_header_key h pDate) []) = some date := by
  obtain ⟨f, -, -, hee⟩ := extractRecord_elim he
  obtain ⟨-, -, -, -, h₁, heq, hh, hdate⟩ := extractEmit_elim hee
  rw [normalizeCL] at heq
  subst hh
  subst hdate
  refine ⟨?_, ?_, (normalizeDT_inv (normalizeCT h₁)).1, (normalizeDT_inv (normalizeCT h₁)).2⟩
  · exact hasKeyCI_normalizeDT_mono
      (hasKeyCI_normalizeCT_mono (normalize_content_length_hasKeyCI heq))
  · exact hasKeyCI_normalizeDT_mono (normalizeCT_hasKeyCI h₁)

/-- The content-length entry is untouched by the content-type and date
normalization steps. -/
theorem finalCL_value (h₁ : Dict) :
    dictGetD (normalizeDT (normalizeCT h₁)).1
      (find_header_key (normalizeDT (normalizeCT h₁)).1 pCL) [] =
    dictGetD h₁ (find_header_key h₁ pCL) [] := by
  obtain ⟨hfCT, hgCT⟩ := @normalizeCT_preserve h₁ pCL low_CT_ne_CL
  obtain ⟨hfDT, hgDT⟩ := @normalizeDT_preserve (normalizeCT h₁) pCL low_Date_ne_CL
  rw [hfDT, hfCT, hgDT _ _ (find_header_key_lowEq h₁ pCL),
    hgCT _ _ (find_header_key_lowEq h₁ pCL)]

/-- Every document in the output of the fuelled loop satisfies the
normalization invariant. -/
theorem iterDocsAux_inv (ids : Nat → PyStr) :
    ∀ fuel idx : Nat, ∀ s : List Nat, ∀ doc : Document,
    doc ∈ (iterDocsAux ids idx fuel s).1 →
      hasKeyCI doc.header pCL = true ∧ hasKeyCI doc.header pCT = true ∧
      hasKeyCI doc.header pDate = true ∧
      convert_date (dictGetD doc.header (find_header_key doc.header pDate) []) =
        some doc.date := by
  intro fuel
  induction fuel with
  | zero => intro idx s doc hmem; simp [iterDocsAux] at hmem
  | succ n ih =>
    intro idx s doc hmem
    rw [iterDocsAux] at hmem
    cases hstep : extractRecord s with
    | eof => rw [hstep] at hmem; simp at hmem
    | fatal m => rw [hstep] at hmem; simp at hmem
    | skip rest => rw [hstep] at hmem; exact ih idx rest doc hmem
    | emit url date status header body rest =>
      rw [hstep] at hmem
      simp only [List.mem_cons] at hmem
      rcases hmem with hmem | hmem
      · subst hmem
        exact extractRecord_emit_inv hstep
      · exact ih (idx + 1) rest doc hmem

/-! ## Claim theorems -/

/-- C1 (counterexample): the claim says exhaustion during a fixed-length
header block with fewer bytes remaining than declared aborts with a fatal
error distinguishable from clean end-of-input.  On the stream
`"http://a\n200\n5\nAB"` (header length 5 declared, 2 bytes remain) the
conversion instead terminates exactly like clean end-of-input: no error,
no documents — `read_chunk`'s `StopIteration` is caught by the blanket
`except StopIteration: pass` wherever it occurs. -/
theorem c1_counterexample :
    iter_documents (fun _ => []) (pstr "http://a\n200\n5\nAB") =
      ([], Termination.clean) := by decide

/-- C1 (amended): if the byte stream is exhausted anywhere inside a
record's framing — mid-line, mid fixed-length block, or exactly at the
start of the URL read — `iter_documents` stops producing documents and
terminates cleanly, indistinguishably from clean end-of-input; truncation
is never a fatal error (fatal errors arise only from decode/parse
failures). -/
theorem c1_truncation_is_clean_eof :
    (∀ (ids : Nat → PyStr) (s : List Nat), extractRecord s = .eof →
      iter_documents ids s = ([], Termination.clean)) ∧
    (∀ s : List Nat, readFraming s = .eof → extractRecord s = .eof) ∧
    readFraming [] = .eof := by
  refine ⟨?_, ?_, by decide⟩
  · intro ids s h
    exact iter_documents_eof h
  · intro s h
    rw [extractRecord, h]

/-- C1 (witness): a stream exhausted mid-URL-line. -/
theorem c1_witness :
    iter_documents (fun _ => []) (pstr "htt") = ([], Termination.clean) :=
  c1_truncation_is_clean_eof.1 (fun _ => []) (pstr "htt") (by decide)

/-- C2 (counterexample): the claim says a negative status value is a
fatal error.  A record with status line `"-1"` is instead converted
successfully into a document with status `-1` and the stream terminates
cleanly — Python's `int()` accepts a sign. -/
theorem c2_counterexample :
    ((iter_documents (fun _ => []) (pstr "http://a\n-1\n5\nA: b\n1\nZ")).1.map
      Document.status = [-1]) ∧
    (iter_documents (fun _ => []) (pstr "http://a\n-1\n5\nA: b\n1\nZ")).2 =
      Termination.clean := by decide

/-- C2 (amended): the status line and the two length lines are parsed as
(possibly signed) integers; a value that fails to parse as an integer is
a fatal error that aborts the whole conversion, but a negative value
parses successfully and is not an error. -/
theorem c2_integer_framing_fields :
    (∀ s urlChunk s₁ u statusChunk s₂, readChunkLine s = some (urlChunk, s₁) →
      asciiDecode urlChunk = some u →
      readChunkLine s₁ = some (statusChunk, s₂) →
      pyIntBytes statusChunk = none →
      readFraming s = .fatal "ValueError: status") ∧
    (∀ s urlChunk s₁ u statusChunk s₂ status hlChunk s₃,
      readChunkLine s = some (urlChunk, s₁) →
      asciiDecode urlChunk = some u →
      readChunkLine s₁ = some (statusChunk, s₂) →
      pyIntBytes statusChunk = some status →
      readChunkLine s₂ = some (hlChunk, s₃) →
      pyIntBytes hlChunk = none →
      readFraming s = .fatal "ValueError: header_length") ∧
    (∀ s urlChunk s₁ u statusChunk s₂ status hlChunk s₃ headerLen headerRaw s₄
        blChunk s₅,
      readChunkLine s = some (urlChunk, s₁) →
      asciiDecode urlChunk = some u →
      readChunkLine s₁ = some (statusChunk, s₂) →
      pyIntBytes statusChunk = some status →
      readChunkLine s₂ = some (hlChunk, s₃) →
      pyIntBytes hlChunk = some headerLen →
      readChunkN headerLen s₃ = some (headerRaw, s₄) →
      readChunkLine s₄ = some (blChunk, s₅) →
      pyIntBytes blChunk = none →
      readFraming s = .fatal "ValueError: body_length") ∧
    (∀ (ids : Nat → PyStr) (s : List Nat) msg, readFraming s = .fatal msg →
      iter_documents ids s = ([], Termination.fatal msg)) ∧
    pyIntBytes (pstr "-5\n") = some (-5) := by
  refine ⟨?_, ?_, ?_, ?_, by decide⟩
  · intro s urlChunk s₁ u statusChunk s₂ h₁ hdec h₂ hint
    simp only [readFraming, h₁, hdec, h₂, hint]
  · intro s urlChunk s₁ u statusChunk s₂ status hlChunk s₃ h₁ hdec h₂ hst h₃ hint
    simp only [readFraming, h₁, hdec, h₂, hst, h₃, hint]
  · intro s urlChunk s₁ u statusChunk s₂ status hlChunk s₃ headerLen headerRaw s₄
      blChunk s₅ h₁ hdec h₂ hst h₃ hhl h₄ h₅ hint
    simp only [readFraming, h₁, hdec, h₂, hst, h₃, hhl, h₄, h₅, hint]
  · intro ids s msg h
    exact iter_documents_fatal (by rw [extractRecord, h])

/-- C2 (witness): concrete non-integer status, header-length and
body-length lines each make the framing read fatal, and the fatal result
aborts the conversion. -/
theorem c2_witness :
    readFraming (pstr "u\nabc\n") = .fatal "ValueError: status" ∧
    readFraming (pstr "u\n1\nxy\n") = .fatal "ValueError: header_length" ∧
    readFraming (pstr "u\n1\n2\nA\nqq\n") = .fatal "ValueError: body_length" ∧
    iter_documents (fun _ => []) (pstr "u\nabc\n") =
      ([], Termination.fatal "ValueError: status") :=
  ⟨c2_integer_framing_fields.1 (pstr "u\nabc\n") (pstr "u\n") (pstr "abc\n")
      (pstr "u\n") (pstr "abc\n") [] (by decide) (by decide) (by decide)
      (by decide),
   c2_integer_framing_fields.2.1 (pstr "u\n1\nxy\n") (pstr "u\n")
      (pstr "1\nxy\n") (pstr "u\n") (pstr "1\n") (pstr "xy\n") 1 (pstr "xy\n")
      [] (by decide) (by decide) (by decide) (by decide) (by decide)
      (by decide),
   c2_integer_framing_fields.2.2.1 (pstr "u\n1\n2\nA\nqq\n") (pstr "u\n")
      (pstr "1\n2\nA\nqq\n") (pstr "u\n") (pstr "1\n") (pstr "2\nA\nqq\n") 1
      (pstr "2\n") (pstr "A\nqq\n") 2 (pstr "A\n") (pstr "qq\n") (pstr "qq\n")
      [] (by decide) (by decide) (by decide) (by decide) (by decide)
      (by decide) (by decide) (by decide) (by decide),
   c2_integer_framing_fields.2.2.2.1 (fun _ => []) (pstr "u\nabc\n")
      "ValueError: status" (by decide)⟩

/-- C3 (counterexample): the claim says every emitted document's body has
exactly the declared number of bytes and its content-length entry equals
the observed body length.  A record with declared body length `-1` is
accepted (`int()` parses the sign, `range(-1)` is empty), emits a
document with a 0-byte body, and its content-length entry is set to the
string `"-1"` — not the observed length 0. -/
theorem c3_counterexample :
    readFraming (pstr "http://a\n200\n5\nA: b\n-1\n") =
      .ok ⟨pstr "http://a", 200, 5, pstr "A: b\n", -1, [], []⟩ ∧
    ((iter_documents (fun _ => []) (pstr "http://a\n200\n5\nA: b\n-1\n")).1.map
      (fun d => d.body.length) = [0]) ∧
    ((iter_documents (fun _ => []) (pstr "http://a\n200\n5\nA: b\n-1\n")).1.map
      (fun d => dictGetD d.header (find_header_key d.header pCL) []) =
      [pstr "-1"]) := by decide

/-- C3 (amended): for every record whose declared body length is
non-negative, the emitted document's body is exactly the declared number
of bytes, and the normalized header's content-length entry equals the
observed body length: it is set to the rendered observed length when the
field was absent or numerically different, and kept verbatim exactly when
the declared value already parses to the observed length. -/
theorem c3_body_and_content_length :
    ∀ (s : List Nat) (f : Framing) url date status h body rest,
    readFraming s = .ok f → 0 ≤ f.bodyLen →
    extractRecord s = .emit url date status h body rest →
    body.length = f.bodyLen.toNat ∧
    (dictGetD h (find_header_key h pCL) [] = intToPyStr f.bodyLen ∨
     (hasKeyCI (parse_header f.headerRaw) pCL = true ∧
      pyIntStr (dictGetD (parse_header f.headerRaw)
        (find_header_key (parse_header f.headerRaw) pCL) []) = some f.bodyLen ∧
      dictGetD h (find_header_key h pCL) [] =
        dictGetD (parse_header f.headerRaw)
          (find_header_key (parse_header f.headerRaw) pCL) [])) := by
  intro s f url date status h body rest hf hnn he
  obtain ⟨f', hf', hz, hee⟩ := extractRecord_elim he
  rw [hf] at hf'
  cases hf'
  obtain ⟨hu, hst, hb, hr, h₁, hcl, hh, hd⟩ := extractEmit_elim hee
  subst hb
  subst hh
  refine ⟨readFraming_body_length hf, ?_⟩
  rw [normalizeCL] at hcl
  rw [finalCL_value h₁]
  rcases normalize_content_length_value hcl with hv | ⟨hci, hparse, hh1⟩
  · exact Or.inl hv
  · subst hh1
    exact Or.inr ⟨hci, hparse, rfl⟩

/-- C3 (witness): a record with declared body length 2, body `"XY"` and
no content-length header: the emitted body has 2 bytes and the entry is
set to `"2"`. -/
theorem c3_witness :
    (pstr "XY").length = (2 : Int).toNat ∧
    (dictGetD
        [(pstr "A", pstr "b"), (pCL, pstr "2"), (pCT, pstr "text/html"),
          (pDate, FINAL_DATE_HTTP)]
        (find_header_key
          [(pstr "A", pstr "b"), (pCL, pstr "2"), (pCT, pstr "text/html"),
            (pDate, FINAL_DATE_HTTP)] pCL) [] = intToPyStr 2 ∨
     (hasKeyCI (parse_header (pstr "A: b\n")) pCL = true ∧
      pyIntStr (dictGetD (parse_header (pstr "A: b\n"))
        (find_header_key (parse_header (pstr "A: b\n")) pCL) []) = some 2 ∧
      dictGetD
        [(pstr "A", pstr "b"), (pCL, pstr "2"), (pCT, pstr "text/html"),
          (pDate, FINAL_DATE_HTTP)]
        (find_header_key
          [(pstr "A", pstr "b"), (pCL, pstr "2"), (pCT, pstr "text/html"),
            (pDate, FINAL_DATE_HTTP)] pCL) [] =
        dictGetD (parse_header (pstr "A: b\n"))
          (find_header_key (parse_header (pstr "A: b\n")) pCL) [])) :=
  c3_body_and_content_length (pstr "http://a\n200\n5\nA: b\n2\nXY")
    ⟨pstr "http://a", 200, 5, pstr "A: b\n", 2, pstr "XY", []⟩
    (pstr "http://a") ⟨2010, 9, 30, 23, 59, 59⟩ 200
    [(pstr "A", pstr "b"), (pCL, pstr "2"), (pCT, pstr "text/html"),
      (pDate, FINAL_DATE_HTTP)]
    (pstr "XY") []
    (by decide) (by decide) (by decide)

/-- C6: a record whose declared header length or body length is exactly
zero emits no document and raises no error: the whole framing (including
the zero-or-more body bytes already read) is consumed, and extraction
continues at the next record's URL read on the remaining stream. -/
theorem c6_zero_length_skips :
    ∀ (ids : Nat → PyStr) (s : List Nat) (f : Framing),
    readFraming s = .ok f → (f.headerLen = 0 ∨ f.bodyLen = 0) →
    extractRecord s = .skip f.rest ∧
    iter_documents ids s = iter_documents ids f.rest := by
  intro ids s f hf hz
  have hskip : extractRecord s = .skip f.rest := by
    simp only [extractRecord, hf]
    rw [if_pos hz]
  exact ⟨hskip, iter_documents_skip hskip⟩

/-- C6 (witness): a record with both lengths zero is skipped and the
(empty) remaining stream is processed as usual. -/
theorem c6_witness :
    extractRecord (pstr "http://a\n200\n0\n0\n") = .skip [] ∧
    iter_documents (fun _ => []) (pstr "http://a\n200\n0\n0\n") =
      iter_documents (fun _ => []) [] :=
  c6_zero_length_skips (fun _ => []) (pstr "http://a\n200\n0\n0\n")
    ⟨pstr "http://a", 200, 0, [], 0, [], []⟩ (by decide) (by decide)

/-- C7: date normalization is asymmetric.  Absent date: the entry is set
to the fallback HTTP-date string (and the resolved timestamp is the
fallback, since the fallback string parses).  Present but unparseable:
the entry is overwritten with the fallback string and the timestamp is
the fallback.  Present and parseable: the timestamp is the parsed value
and the header is left exactly as originally written — no entry is
rewritten or normalized. -/
theorem c7_date_normalization_asymmetry :
    (∀ d : Dict, hasKeyCI d pDate = false →
      normalizeDT d = (dictSet d pDate FINAL_DATE_HTTP, FINAL_DATE)) ∧
    (∀ (d : Dict) (dt : DateTime), hasKeyCI d pDate = true →
      convert_date (dictGetD d (find_header_key d pDate) []) = some dt →
      normalizeDT d = (d, dt)) ∧
    (∀ d : Dict, hasKeyCI d pDate = true →
      convert_date (dictGetD d (find_header_key d pDate) []) = none →
      normalizeDT d =
        (dictSet d (find_header_key d pDate) FINAL_DATE_HTTP, FINAL_DATE)) :=
  ⟨fun _ h => normalizeDT_absent h,
   fun _ _ hci hc => normalizeDT_present_some hci hc,
   fun _ hci hc => normalizeDT_present_none hci hc⟩

/-- C7 (witness): the three cases at concrete headers — absent date;
present parseable date (header returned untouched); present unparseable
date `"X"` (entry overwritten with the fallback). -/
theorem c7_witness :
    normalizeDT [(pstr "X-A", pstr "1")] =
      (dictSet [(pstr "X-A", pstr "1")] pDate FINAL_DATE_HTTP, FINAL_DATE) ∧
    normalizeDT [(pstr "date", pstr "Mon, 5 Oct 2009 01:02:03 GMT")] =
      ([(pstr "date", pstr "Mon, 5 Oct 2009 01:02:03 GMT")],
        ⟨2009, 10, 5, 1, 2, 3⟩) ∧
    normalizeDT [(pstr "Date", pstr "X")] =
      (dictSet [(pstr "Date", pstr "X")]
        (find_header_key [(pstr "Date", pstr "X")] pDate) FINAL_DATE_HTTP,
        FINAL_DATE) :=
  ⟨c7_date_normalization_asymmetry.1 _ (by decide),
   c7_date_normalization_asymmetry.2.1 _ _ (by decide) (by decide),
   c7_date_normalization_asymmetry.2.2 _ (by decide) (by decide)⟩

/-- C10: a record whose parsed header carries a content-length entry that
does not parse as an integer (`"Content-Length: abc"`) makes the
conversion abort with the uncaught `ValueError` from
`int(header[content_length_key])` — it is not treated as a mismatch to
overwrite. -/
theorem c10_bad_content_length_fatal :
    iter_documents (fun _ => []) (pstr "http://a\n200\n20\nContent-Length: abc\n1\nZ") =
      ([], Termination.fatal "ValueError: content_length") := by decide

/-! ## Encoding lemmas for the output stages -/

theorem ascii_append {a b : List Nat} (ha : ∀ c ∈ a, c < 128)
    (hb : ∀ c ∈ b, c < 128) : ∀ c ∈ a ++ b, c < 128 := by
  intro c hc
  rcases List.mem_append.mp hc with h | h
  · exact ha c h
  · exact hb c h

theorem natDecAux_digits :
    ∀ fuel n c, c ∈ natDecAux fuel n → 48 ≤ c ∧ c ≤ 57 := by
  intro fuel
  induction fuel with
  | zero => intro n c h; simp [natDecAux] at h
  | succ m ih =>
    intro n c h
    rw [natDecAux] at h
    split at h
    · rename_i hn
      simp only [List.mem_singleton] at h
      omega
    · rw [List.mem_append] at h
      rcases h with h | h
      · exact ih _ _ h
      · simp only [List.mem_singleton] at h
        have : n % 10 < 10 := Nat.mod_lt n (by omega)
        omega

theorem natToDec_ascii (n : Nat) : ∀ c ∈ natToDec n, c < 128 := by
  intro c h
  have := natDecAux_digits _ _ _ h
  omega

theorem intToPyStr_ascii (i : Int) : ∀ c ∈ intToPyStr i, c < 128 := by
  intro c h
  cases i with
  | ofNat m => exact natToDec_ascii m c h
  | negSucc m =>
    rw [intToPyStr, List.mem_cons] at h
    rcases h with h | h
    · omega
    · exact natToDec_ascii (m + 1) c h

theorem pad2_ascii (n : Nat) : ∀ c ∈ pad2 n, c < 128 := by
  intro c h
  rw [pad2] at h
  split at h
  · rename_i hn
    simp only [List.mem_cons, List.mem_singleton] at h
    rcases h with h | h | h
    · omega
    · omega
    · simp at h
  · exact natToDec_ascii n c h

theorem strftimeWarc_ascii (d : DateTime) : ∀ c ∈ strftimeWarc d, c < 128 := by
  have hdash : ∀ c ∈ pstr "-", c < 128 := by decide
  have hT : ∀ c ∈ pstr "T", c < 128 := by decide
  have hcolon : ∀ c ∈ pstr ":", c < 128 := by decide
  have hZ : ∀ c ∈ pstr "Z", c < 128 := by decide
  rw [strftimeWarc]
  exact ascii_append (ascii_append (ascii_append (ascii_append (ascii_append
    (ascii_append (ascii_append (ascii_append (ascii_append (ascii_append
    (ascii_append (natToDec_ascii d.year) hdash) (pad2_ascii d.month)) hdash)
    (pad2_ascii d.day)) hT) (pad2_ascii d.hour)) hcolon)
    (pad2_ascii d.minute)) hcolon) (pad2_ascii d.second)) hZ

theorem statusPhrases_ascii :
    statusPhrases.all (fun p => p.2.all (fun c => c < 128)) = true := by decide

theorem lookupPhrase_ascii {st : Int} {ph : PyStr}
    (h : lookupPhrase st = some ph) : ∀ c ∈ ph, c < 128 := by
  rw [lookupPhrase] at h
  cases hf : statusPhrases.find? (fun p => p.1 = st) with
  | none => rw [hf] at h; cases h
  | some p =>
    rw [hf] at h
    cases h
    have hmem := List.mem_of_find?_eq_some hf
    have hall := List.all_eq_true.mp statusPhrases_ascii p hmem
    intro c hc
    have := List.all_eq_true.mp hall c hc
    simpa using this

theorem statusMessage_ascii (st : Int) : ∀ c ∈ statusMessage st, c < 128 := by
  rw [statusMessage]
  cases hl : lookupPhrase st with
  | some ph =>
    exact ascii_append (ascii_append (intToPyStr_ascii st)
      (by decide : ∀ c ∈ pstr " ", c < 128)) (lookupPhrase_ascii hl)
  | none => exact intToPyStr_ascii st

theorem asciiEncode_self {s : PyStr} (h : ∀ c ∈ s, c < 128) :
    asciiEncode s = some s := by
  rw [asciiEncode, if_pos]
  exact List.all_eq_true.mpr (fun c hc => decide_eq_true (h c hc))

theorem latin1Encode_self {s : PyStr} (h : ∀ c ∈ s, c < 256) :
    latin1Encode s = some s := by
  rw [latin1Encode, if_pos]
  exact List.all_eq_true.mpr (fun c hc => decide_eq_true (h c hc))

theorem statusLine_ascii (st : Int) :
    ∀ c ∈ pstr "HTTP/1.1 " ++ statusMessage st ++ pstr "\r\n", c < 128 :=
  ascii_append (ascii_append (by decide : ∀ c ∈ pstr "HTTP/1.1 ", c < 128)
    (statusMessage_ascii st)) (by decide : ∀ c ∈ pstr "\r\n", c < 128)

theorem encodeHeaderLines_eq :
    ∀ d : Dict, (∀ kv ∈ d, (∀ c ∈ kv.1, c < 256) ∧ (∀ c ∈ kv.2, c < 256)) →
    encodeHeaderLines d =
      some ((d.map (fun kv => kv.1 ++ pstr ": " ++ kv.2 ++ pstr "\r\n")).flatten) := by
  intro d
  induction d with
  | nil => intro _; rfl
  | cons kv rest ih =>
    intro h
    simp only [encodeHeaderLines,
      latin1Encode_self (h kv (List.mem_cons_self kv rest)).1,
      latin1Encode_self (h kv (List.mem_cons_self kv rest)).2,
      ih (fun kv' h' => h kv' (List.mem_cons_of_mem kv h')),
      List.map_cons, List.flatten_cons]

/-! ## Remaining claim theorems -/

theorem foldl_dictSet_nodup :
    ∀ (l : List (PyStr × PyStr)) (acc : Dict), (acc.map Prod.fst).Nodup →
    ((l.foldl (fun d kv => dictSet d (pyStrip kv.1) (pyStrip kv.2)) acc).map
      Prod.fst).Nodup := by
  intro l
  induction l with
  | nil => intro acc h; simpa using h
  | cons kv rest ih =>
    intro acc h
    exact ih _ (nodup_keys_dictSet _ _ h)

theorem parse_header_keys_nodup (raw : List Nat) :
    ((parse_header raw).map Prod.fst).Nodup := by
  rw [parse_header]
  exact foldl_dictSet_nodup _ _ (by simp)

/-- C4: `parse_header` is total and reconstructs an ordered mapping with
unique keys: `key: value` lines are split at the first colon and inserted
trimmed; a colonless line is concatenated (no separator) onto the
previous field's value, or dropped when no field precedes it; a duplicate
key overwrites the earlier value (keeping its position) instead of
merging.  The two examples of the claim hold verbatim. -/
theorem c4_parse_header_reconstruction :
    parse_header (pstr "A: 1\nB: 2\n") =
      [(pstr "A", pstr "1"), (pstr "B", pstr "2")] ∧
    parse_header (pstr "A: 1\ncontinued\nB: 2\n") =
      [(pstr "A", pstr "1continued"), (pstr "B", pstr "2")] ∧
    parse_header (pstr "A: 1\nB: 3\nA: 2\n") =
      [(pstr "A", pstr "2"), (pstr "B", pstr "3")] ∧
    parse_header (pstr "junk\nA: 1\n") = [(pstr "A", pstr "1")] ∧
    parse_header (pstr "A: b:c\n") = [(pstr "A", pstr "b:c")] ∧
    ∀ raw : List Nat, ((parse_header raw).map Prod.fst).Nodup :=
  ⟨by decide, by decide, by decide, by decide, by decide,
   parse_header_keys_nodup⟩

/-- C5: every document yielded by `iter_documents` satisfies the
post-normalization invariant: its header has case-insensitively matched
entries for content-length, content-type and date, and its date is a
resolved (never-null) timestamp — converting the final date entry yields
exactly `doc.date` (a parse failure has substituted the fallback
constant, whose string also parses to it). -/
theorem c5_document_invariant :
    ∀ (ids : Nat → PyStr) (s : List Nat) (doc : Document),
    doc ∈ (iter_documents ids s).1 →
    hasKeyCI doc.header pCL = true ∧ hasKeyCI doc.header pCT = true ∧
    hasKeyCI doc.header pDate = true ∧
    convert_date (dictGetD doc.header (find_header_key doc.header pDate) []) =
      some doc.date := by
  intro ids s doc hmem
  exact iterDocsAux_inv ids _ _ _ doc hmem

/-- The document emitted from the one-record stream used to witness C5. -/
def c5ExampleDoc : Document :=
  ⟨[], pstr "http://a", ⟨2010, 9, 30, 23, 59, 59⟩, 200,
    [(pstr "A", pstr "b"), (pCL, pstr "2"), (pCT, pstr "text/html"),
      (pDate, FINAL_DATE_HTTP)],
    pstr "XY"⟩

/-- C5 (witness): the invariant at the document produced from a concrete
one-record stream. -/
theorem c5_witness :
    hasKeyCI c5ExampleDoc.header pCL = true ∧
    hasKeyCI c5ExampleDoc.header pCT = true ∧
    hasKeyCI c5ExampleDoc.header pDate = true ∧
    convert_date (dictGetD c5ExampleDoc.header
      (find_header_key c5ExampleDoc.header pDate) []) = some c5ExampleDoc.date :=
  c5_document_invariant (fun _ => []) (pstr "http://a\n200\n5\nA: b\n2\nXY")
    c5ExampleDoc (by decide)

/-- C8: `make_http_response` produces exactly the status line
`HTTP/1.1 <status> <phrase>\r\n` (with the registry's reason phrase, or
only the numeric code when the status is unrecognized), then each header
entry as `Key: Value\r\n` in insertion order, a blank line, and the body
bytes verbatim.  The encodability hypothesis always holds for pipeline
documents, whose header text was decoded from latin-1 bytes. -/
theorem c8_http_response_format :
    ∀ doc : Document,
    (∀ kv ∈ doc.header, (∀ c ∈ kv.1, c < 256) ∧ (∀ c ∈ kv.2, c < 256)) →
    make_http_response doc =
      some ((pstr "HTTP/1.1 " ++ statusMessage doc.status ++ pstr "\r\n") ++
        (doc.header.map (fun kv => kv.1 ++ pstr ": " ++ kv.2 ++ pstr "\r\n")).flatten ++
        pstr "\r\n" ++ doc.body) ∧
    (∀ phrase, lookupPhrase doc.status = some phrase →
      statusMessage doc.status = intToPyStr doc.status ++ pstr " " ++ phrase) ∧
    (lookupPhrase doc.status = none →
      statusMessage doc.status = intToPyStr doc.status) := by
  intro doc h
  refine ⟨?_, ?_, ?_⟩
  · rw [make_http_response, asciiEncode_self (statusLine_ascii doc.status),
      encodeHeaderLines_eq doc.header h]
  · intro phrase hp
    rw [statusMessage, hp]
  · intro hp
    rw [statusMessage, hp]

/-- C8 (witness): the format at a concrete document with one header
entry and a recognized status, and the numeric-only fallback at an
unrecognized status. -/
theorem c8_witness :
    make_http_response
      ⟨pstr "y", pstr "http://b", ⟨2010, 1, 2, 3, 4, 5⟩, 404,
        [(pstr "K", pstr "v")], pstr "Z"⟩ =
      some ((pstr "HTTP/1.1 " ++ statusMessage 404 ++ pstr "\r\n") ++
        ([(pstr "K", pstr "v")].map
          (fun kv => kv.1 ++ pstr ": " ++ kv.2 ++ pstr "\r\n")).flatten ++
        pstr "\r\n" ++ pstr "Z") ∧
    statusMessage 299 = intToPyStr 299 :=
  ⟨(c8_http_response_format
      ⟨pstr "y", pstr "http://b", ⟨2010, 1, 2, 3, 4, 5⟩, 404,
        [(pstr "K", pstr "v")], pstr "Z"⟩ (by decide)).1,
   (c8_http_response_format
      ⟨pstr "y", pstr "http://b", ⟨2010, 1, 2, 3, 4, 5⟩, 299,
        [(pstr "K", pstr "v")], pstr "Z"⟩ (by decide)).2.2 (by decide)⟩

/-- C9: `make_warc_record` produces the fixed-field WARC header whose
`Content-Length` is the exact byte length of the synthesized HTTP
response and whose `WARC-Date` is the document's timestamp rendered to
whole seconds (`%Y-%m-%dT%H:%M:%SZ`), followed by a blank line and the
response; and `main`'s output is the concatenation, in emission order, of
these records each compressed independently as its own unit. -/
theorem c9_warc_record_and_output :
    (∀ (doc : Document) (payload : List Nat),
      make_http_response doc = some payload →
      (∀ c ∈ doc.id, c < 128) → (∀ c ∈ doc.url, c < 128) →
      make_warc_record doc =
        some (pstr "WARC/1.0\r\n" ++ pstr "WARC-Type: response\r\n" ++
          (pstr "WARC-Record-ID: <urn:uuid:" ++ doc.id ++ pstr ">\r\n") ++
          (pstr "WARC-Date: " ++ strftimeWarc doc.date ++ pstr "\r\n") ++
          (pstr "WARC-Target-URI: " ++ doc.url ++ pstr "\r\n") ++
          (pstr "Content-Length: " ++ natToDec payload.length ++ pstr "\r\n") ++
          pstr "Content-Type: application/http; msgtype=response\r\n" ++
          pstr "\r\n" ++ payload)) ∧
    (∀ (compress : List Nat → List Nat) (docs : List Document)
        (records : List (List Nat)),
      warcRecords docs = some records →
      mainOutput compress docs = some (records.map compress).flatten) := by
  constructor
  · intro doc payload hp hid hurl
    have hidL : ∀ c ∈ pstr "WARC-Record-ID: <urn:uuid:" ++ doc.id ++ pstr ">\r\n",
        c < 128 :=
      ascii_append (ascii_append
        (by decide : ∀ c ∈ pstr "WARC-Record-ID: <urn:uuid:", c < 128) hid)
        (by decide : ∀ c ∈ pstr ">\r\n", c < 128)
    have hdateL : ∀ c ∈ pstr "WARC-Date: " ++ strftimeWarc doc.date ++ pstr "\r\n",
        c < 128 :=
      ascii_append (ascii_append
        (by decide : ∀ c ∈ pstr "WARC-Date: ", c < 128)
        (strftimeWarc_ascii doc.date))
        (by decide : ∀ c ∈ pstr "\r\n", c < 128)
    have huriL : ∀ c ∈ pstr "WARC-Target-URI: " ++ doc.url ++ pstr "\r\n",
        c < 128 :=
      ascii_append (ascii_append
        (by decide : ∀ c ∈ pstr "WARC-Target-URI: ", c < 128) hurl)
        (by decide : ∀ c ∈ pstr "\r\n", c < 128)
    have hlenL : ∀ c ∈ pstr "Content-Length: " ++ natToDec payload.length ++
        pstr "\r\n", c < 128 :=
      ascii_append (ascii_append
        (by decide : ∀ c ∈ pstr "Content-Length: ", c < 128)
        (natToDec_ascii payload.length))
        (by decide : ∀ c ∈ pstr "\r\n", c < 128)
    simp only [make_warc_record, hp, asciiEncode_self hidL,
      asciiEncode_self hdateL, asciiEncode_self huriL, asciiEncode_self hlenL]
  · intro compress docs
    induction docs with
    | nil =>
      intro records h
      rw [warcRecords] at h
      cases h
      rfl
    | cons doc rest ih =>
      intro records h
      rw [warcRecords] at h
      cases hw : make_warc_record doc with
      | none => rw [hw] at h; cases h
      | some record =>
        rw [hw] at h
        cases hr : warcRecords rest with
        | none => rw [hr] at h; cases h
        | some rs =>
          rw [hr] at h
          cases h
          simp only [mainOutput, hw, ih rs hr, List.map_cons, List.flatten_cons]

/-- The document and WARC record used to witness C9. -/
def c9ExampleDoc : Document :=
  ⟨pstr "x", pstr "http://a", ⟨2010, 9, 30, 23, 59, 59⟩, 200, [], []⟩

def c9ExampleRecord : List Nat :=
  pstr ("WARC/1.0\r\nWARC-Type: response\r\nWARC-Record-ID: <urn:uuid:x>\r\n" ++
    "WARC-Date: 2010-09-30T23:59:59Z\r\nWARC-Target-URI: http://a\r\n" ++
    "Content-Length: 19\r\n" ++
    "Content-Type: application/http; msgtype=response\r\n\r\n" ++
    "HTTP/1.1 200 OK\r\n\r\n")

set_option maxRecDepth 10000 in
/-- C9 (witness): a concrete document (empty header, 19-byte response)
yields exactly the expected record, and `main` over a one-document list
with the identity as compression writes exactly that record. -/
theorem c9_witness :
    make_warc_record c9ExampleDoc =
      some (pstr "WARC/1.0\r\n" ++ pstr "WARC-Type: response\r\n" ++
        (pstr "WARC-Record-ID: <urn:uuid:" ++ c9ExampleDoc.id ++ pstr ">\r\n") ++
        (pstr "WARC-Date: " ++ strftimeWarc c9ExampleDoc.date ++ pstr "\r\n") ++
        (pstr "WARC-Target-URI: " ++ c9ExampleDoc.url ++ pstr "\r\n") ++
        (pstr "Content-Length: " ++
          natToDec (pstr "HTTP/1.1 200 OK\r\n\r\n").length ++ pstr "\r\n") ++
        pstr "Content-Type: application/http; msgtype=response\r\n" ++
        pstr "\r\n" ++ pstr "HTTP/1.1 200 OK\r\n\r\n") ∧
    mainOutput id [c9ExampleDoc] = some ([c9ExampleRecord].map id).flatten :=
  ⟨c9_warc_record_and_output.1 c9ExampleDoc (pstr "HTTP/1.1 200 OK\r\n\r\n")
      (by decide) (by decide) (by decide),
   c9_warc_record_and_output.2 id [c9ExampleDoc] [c9ExampleRecord] (by decide)⟩

end NwcWarc
